import Mathlib

set_option autoImplicit false

namespace VnfPlacement

/-!
Shallow embedding of the genetic VNF-chain placement searcher.

Substrate nodes are identified with their index in the topology's sorted node
list (the ordering that gives placement-matrix cells their meaning), so the
sorted node list is `List.range num_nodes`.  Resource types are identified with
their index in the sorted resource list; every Counter in the source carries
the full resource key set, so counters become total functions on resource
indices.  Python floats are modelled by rationals; `round(x, 6) == 0` on a
non-negative float is modelled by `|x| <= 1/2000000` (round-half-even sends x
to 0 exactly when |x * 10^6| <= 1/2).
-/

/-- A VNF of a service chain: `resources_needed_by_resource_type` (a Counter
over the full resource-type set in the source), plus the set of incompatible
substrate nodes recorded for this VNF in `incompatible_nodes_per_vnf`
(empty when no compatibility data is provided: the source then uses
`set()` as the default). -/
structure Vnf where
  resources_needed : Nat → Int
  incompatible_nodes : List Nat

/-- One request's Service: ingress/egress endpoint substrate nodes, the
ordered VNF chain, the minimum guaranteed bandwidths of the k+1 virtual
links of the traffic flow (entry j is the bandwidth of the virtual link
entering the j-th virtual node after the ingress), and the chain-wide
latency budget. -/
structure Service where
  ingress : Nat
  egress : Nat
  vnf_chain : List Vnf
  virtual_link_bw : List ℚ
  maximum_tolerated_latency : ℚ

/-- The fixed problem data: the substrate (a complete directed graph with
self-loops, so latency and bandwidth are total on ordered node pairs),
the registered requests grouped as (main, alternatives), and the
main-request ratio floor. -/
structure Problem where
  num_nodes : Nat
  num_resources : Nat
  capacity : Nat → Nat → Int
  link_latency : Nat → Nat → ℚ
  link_bandwidth : Nat → Nat → ℚ
  groups : List (Service × List Service)
  minimum_ratio_of_main_requests : ℚ

/-- The evaluated requests in `designated_nodes_per_request` order: each main
request followed by its alternatives, groups in registration order.  The
Boolean flag records whether the request is a MainServiceRequest. -/
def evaluated_requests (P : Problem) : List (Bool × Service) :=
  (P.groups.map fun g => (true, g.1) :: g.2.map fun s => (false, s)).flatten

/-- Sizes of the mutually exclusive request groups (1 + number of
alternatives), in order. -/
def group_sizes (P : Problem) : List Nat :=
  P.groups.map fun g => g.2.length + 1

/-- What `designated_nodes_per_request` stores for one request: `none` when the
request is rejected, otherwise the full designated node list
(ingress node, one node per VNF, egress node). -/
abbrev Asg := Option (List Nat)

/-- The interior of a designated node list: `designated_nodes[1:-1]`, the node
assigned to each chain VNF. -/
def interior (path : List Nat) : List Nat :=
  (path.drop 1).dropLast

/-- Ordered consecutive endpoint pairs of a node path (`pairwise(nodes)`): the
substrate links the path traverses. -/
def path_pairs (path : List Nat) : List (Nat × Nat) :=
  path.zip (path.drop 1)

/-- Resources of resource type `r` that one request's assignment places on node
`n`: the VNF chain is zipped against the interior of the designated node list
(as `designated_node_per_vnf` does) and the demands of the VNFs landing on `n`
are summed. -/
def row_resources (S : Service) (a : Asg) (n r : Nat) : Int :=
  match a with
  | none => 0
  | some path =>
      ((S.vnf_chain.zip (interior path)).map
        (fun vm => if vm.2 = n then vm.1.resources_needed r else 0)).sum

/-- Bandwidth one request's assignment allocates on the substrate link
`(t, h)`: the traffic-flow virtual links are zipped against the substrate
links of the designated path (as
`designated_network_link_per_virtual_link` does) and the minimum guaranteed
bandwidths of those routed over `(t, h)` are summed. -/
def row_bandwidth (S : Service) (a : Asg) (t h : Nat) : ℚ :=
  match a with
  | none => 0
  | some path =>
      ((S.virtual_link_bw.zip (path_pairs path)).map
        (fun be => if be.2 = (t, h) then be.1 else 0)).sum

/-- Latency of the substrate path a designated node list induces. -/
def row_latency (P : Problem) (path : List Nat) : ℚ :=
  ((path_pairs path).map fun e => P.link_latency e.1 e.2).sum

/-- Latency budget excess one request contributes to
`cumulative_excess_latency`: positive part of (path latency - budget),
zero for a rejected request. -/
def row_excess_latency (P : Problem) (S : Service) (a : Asg) : ℚ :=
  match a with
  | none => 0
  | some path => max (row_latency P path - S.maximum_tolerated_latency) 0

/-- Number of entries this request contributes to `incompatible_placements`:
chain VNFs whose designated node is in their incompatible-node set. -/
def row_incompatible (S : Service) (a : Asg) : Nat :=
  match a with
  | none => 0
  | some path =>
      ((S.vnf_chain.zip (interior path)).map
        (fun vm => if vm.2 ∈ vm.1.incompatible_nodes then 1 else 0)).sum

/-- Sum of a per-request quantity over the evaluated requests paired with
their assignments (the iteration over `designated_nodes_per_request.items()`
that every derived quantity of the placement performs). -/
def pair_sum {M : Type} [AddCommMonoid M] (f : (Bool × Service) → Asg → M) :
    List (Bool × Service) → List Asg → M
  | r :: rs, a :: pl => f r a + pair_sum f rs pl
  | _, _ => 0

/-- Resources of type `r` allocated on node `n` by the whole placement
(`allocated_resources_per_node`). -/
def allocated_resources (P : Problem) (pl : List Asg) (n r : Nat) : Int :=
  pair_sum (fun q a => row_resources q.2 a n r) (evaluated_requests P) pl

/-- Bandwidth allocated on substrate link `(t, h)` by the whole placement
(`allocated_bandwidth_per_network_link`). -/
def allocated_bandwidth (P : Problem) (pl : List Asg) (t h : Nat) : ℚ :=
  pair_sum (fun q a => row_bandwidth q.2 a t h) (evaluated_requests P) pl

/-- Sum of `f` over `List.range n`. -/
def range_sum {M : Type} [AddCommMonoid M] (n : Nat) (f : Nat → M) : M :=
  ((List.range n).map f).sum

/-- Cumulative resource shortage: over every node and resource type, the
amount by which allocation exceeds capacity (the source sums
`-remaining` over the negative remaining amounts). -/
def cumulative_resource_shortage (P : Problem) (pl : List Asg) : Int :=
  range_sum P.num_nodes fun n =>
    range_sum P.num_resources fun r =>
      max (allocated_resources P pl n r - P.capacity n r) 0

/-- Cumulative bandwidth shortage over all substrate links. -/
def cumulative_bandwidth_shortage (P : Problem) (pl : List Asg) : ℚ :=
  range_sum P.num_nodes fun t =>
    range_sum P.num_nodes fun h =>
      max (allocated_bandwidth P pl t h - P.link_bandwidth t h) 0

/-- Cumulative excess latency over the accepted requests
(`cumulative_excess_latency`). -/
def cumulative_excess_latency (P : Problem) (pl : List Asg) : ℚ :=
  pair_sum (fun q a => row_excess_latency P q.2 a) (evaluated_requests P) pl

/-- Number of VNFs placed on a node they are incompatible with
(`incompatible_placements_count`). -/
def incompatible_placements_count (P : Problem) (pl : List Asg) : Nat :=
  pair_sum (fun q a => row_incompatible q.2 a) (evaluated_requests P) pl

/-- Number of accepted requests (assignments that are not `None`). -/
def accepted_count : List Asg → Nat
  | [] => 0
  | a :: pl => (if a.isSome then 1 else 0) + accepted_count pl

/-- Number of accepted main requests. -/
def accepted_main_count (rs : List (Bool × Service)) (pl : List Asg) : Nat :=
  pair_sum (fun q a => if q.1 && a.isSome then 1 else 0) rs pl

/-- The `ratio_of_accepted_main_requests` of the placement: 0 when no request
is accepted, otherwise accepted mains / accepted. -/
def ratio_of_accepted_main_requests (P : Problem) (pl : List Asg) : ℚ :=
  if accepted_count pl = 0 then 0
  else (accepted_main_count (evaluated_requests P) pl : ℚ) / (accepted_count pl : ℚ)

/-- The `mutual_exclusivity_violations_count`: per mutually exclusive group,
the number of accepted members beyond the first (clamped at 0 by the
truncated subtraction). -/
def mutual_exclusivity_violations_count : List Nat → List Asg → Nat
  | [], _ => 0
  | s :: rest, pl =>
      (accepted_count (pl.take s) - 1) +
        mutual_exclusivity_violations_count rest (pl.drop s)

/-- Whether a non-negative float sum passes the `round(x, 6) == 0` test of
`is_valid` (six-digit round-half-even maps x to 0 exactly when
|x * 10^6| <= 1/2). -/
def rounds_to_zero (q : ℚ) : Bool :=
  decide (|q| ≤ 1 / 2000000)

/-- The base `VNFChainPlacement.is_valid`: no resource shortage, rounded
excess latency and bandwidth shortage both zero, no incompatible
placements. -/
def is_valid_base (P : Problem) (pl : List Asg) : Bool :=
  cumulative_resource_shortage P pl == 0 &&
  rounds_to_zero (cumulative_excess_latency P pl) &&
  rounds_to_zero (cumulative_bandwidth_shortage P pl) &&
  incompatible_placements_count P pl == 0

/-- `MultiFlavouredVNFChainPlacement.is_valid`: the base validity plus no
mutual exclusivity violation and the main-request ratio floor. -/
def is_valid (P : Problem) (pl : List Asg) : Bool :=
  is_valid_base P pl &&
  (mutual_exclusivity_violations_count (group_sizes P) pl == 0 &&
    decide (P.minimum_ratio_of_main_requests ≤ ratio_of_accepted_main_requests P pl))

/-! Helper lemmas about the counting functions. -/

theorem accepted_count_append (l1 l2 : List Asg) :
    accepted_count (l1 ++ l2) = accepted_count l1 + accepted_count l2 := by
  induction l1 with
  | nil => simp [accepted_count]
  | cons a l ih => simp [accepted_count, ih]; ring

theorem excl_violations_zero_of_no_accepted (sizes : List Nat) (pl : List Asg)
    (h : accepted_count pl = 0) :
    mutual_exclusivity_violations_count sizes pl = 0 := by
  induction sizes generalizing pl with
  | nil => rfl
  | cons s rest ih =>
      have hsplit := accepted_count_append (pl.take s) (pl.drop s)
      rw [List.take_append_drop, h] at hsplit
      have h1 : accepted_count (pl.take s) = 0 := by omega
      have h2 : accepted_count (pl.drop s) = 0 := by omega
      simp [mutual_exclusivity_violations_count, h1, ih _ h2]

theorem accepted_count_eq_zero_of_all_none (pl : List Asg)
    (h : pl.all Option.isNone = true) : accepted_count pl = 0 := by
  induction pl with
  | nil => rfl
  | cons a pl ih =>
      simp only [List.all_cons, Bool.and_eq_true] at h
      have ha : a.isSome = false := by
        cases a <;> simp_all
      simp [accepted_count, ha, ih h.2]

/-! Concrete instances used in counterexamples and witnesses. -/

/-- A VNF needing one unit of the single resource, with no incompatibilities. -/
def unit_vnf : Vnf := ⟨fun _ => 1, []⟩

/-- A single-VNF service anchored at node 0, with unit virtual-link
bandwidths and a zero latency budget. -/
def unit_service : Service := ⟨0, 0, [unit_vnf], [1, 1], 0⟩

/-- One substrate node, one resource with capacity 5, zero latencies,
bandwidth 10 on every link; a single main request; ratio floor 1/2. -/
def one_main_problem_half : Problem :=
  ⟨1, 1, fun _ _ => 5, fun _ _ => 0, fun _ _ => 10, [(unit_service, [])], 1 / 2⟩

/-- The same instance with ratio floor 0. -/
def one_main_problem_zero : Problem :=
  ⟨1, 1, fun _ _ => 5, fun _ _ => 0, fun _ _ => 10, [(unit_service, [])], 0⟩

/-- Claim C1 counterexample: in the all-rejected placement of a one-request
instance every resource, bandwidth, latency, compatibility and
mutual-exclusivity constraint holds, yet with
minimum_ratio_of_main_requests = 1/2 the placement is not valid, because
ratio_of_accepted_main_requests is 0 when no request is accepted and
is_valid requires 1/2 <= 0. -/
theorem all_rejected_invalid_under_positive_floor :
    is_valid_base one_main_problem_half [none] = true ∧
    mutual_exclusivity_violations_count (group_sizes one_main_problem_half) [none] = 0 ∧
    is_valid one_main_problem_half [none] = false := by
  refine ⟨?_, by decide, ?_⟩ <;>
    norm_num [is_valid, is_valid_base, one_main_problem_half, cumulative_resource_shortage,
      cumulative_bandwidth_shortage, cumulative_excess_latency, incompatible_placements_count,
      range_sum, List.range_succ, allocated_resources, allocated_bandwidth, pair_sum,
      evaluated_requests, unit_service, row_resources, row_bandwidth, row_excess_latency,
      row_incompatible, rounds_to_zero, mutual_exclusivity_violations_count, group_sizes,
      accepted_count, ratio_of_accepted_main_requests, accepted_main_count]

/-- Claim C1 (amended): for every placement in which no request is accepted
and whose resource, bandwidth, latency, compatibility constraints are
satisfied, is_valid() returns true exactly when
minimum_ratio_of_main_requests <= 0 (so, within [0,1], only at 0): the
main-ratio conjunct compares the floor against a ratio of 0 rather than
being waived on empty placements. -/
theorem all_rejected_is_valid_iff_nonpositive_floor (P : Problem) (pl : List Asg)
    (hnone : pl.all Option.isNone = true)
    (hbase : is_valid_base P pl = true) :
    is_valid P pl = true ↔ P.minimum_ratio_of_main_requests ≤ 0 := by
  have hc : accepted_count pl = 0 := accepted_count_eq_zero_of_all_none pl hnone
  have hex : mutual_exclusivity_violations_count (group_sizes P) pl = 0 :=
    excl_violations_zero_of_no_accepted _ pl hc
  have hr : ratio_of_accepted_main_requests P pl = 0 := by
    simp [ratio_of_accepted_main_requests, hc]
  constructor
  · intro hv
    simp only [is_valid, Bool.and_eq_true, decide_eq_true_eq] at hv
    rw [hr] at hv
    exact hv.2.2
  · intro hle
    simp only [is_valid, Bool.and_eq_true, decide_eq_true_eq]
    exact ⟨hbase, by simp [hex], by rw [hr]; exact hle⟩

/-- Witness for the amended C1 theorem at a concrete input: with ratio floor
0, the all-rejected placement is valid. -/
theorem all_rejected_is_valid_iff_nonpositive_floor_witness :
    is_valid one_main_problem_zero [none] = true :=
  (all_rejected_is_valid_iff_nonpositive_floor one_main_problem_zero [none]
    (by decide)
    (by norm_num [is_valid_base, one_main_problem_zero, cumulative_resource_shortage,
      cumulative_bandwidth_shortage, cumulative_excess_latency, incompatible_placements_count,
      range_sum, List.range_succ, allocated_resources, allocated_bandwidth, pair_sum,
      evaluated_requests, unit_service, row_resources, row_bandwidth, row_excess_latency,
      row_incompatible, rounds_to_zero])).mpr (by norm_num [one_main_problem_zero])

/-! The row-rejection move of RandomRejectionMutationOperator and its effect
on the validity conjuncts. -/

/-- Row rejection at placement level: each entry whose mask bit is true is
replaced by None (the operator overwrites the whole matrix row with -1s);
entries beyond the mask are kept. -/
def reject_rows : List Bool → List Asg → List Asg
  | _, [] => []
  | [], pl => pl
  | b :: mask, a :: pl => (if b then none else a) :: reject_rows mask pl

/-- All virtual-link bandwidths of the problem's requests are non-negative
(the data model guarantees minimum_guaranteed_bandwidth >= 0). -/
def nonneg_virtual_bandwidths (P : Problem) : Bool :=
  (evaluated_requests P).all fun q => q.2.virtual_link_bw.all fun b => decide (0 ≤ b)

/-- All VNF resource demands of the problem's requests are non-negative on
the problem's resource types. -/
def nonneg_resource_demands (P : Problem) : Bool :=
  (evaluated_requests P).all fun q => q.2.vnf_chain.all fun v =>
    (List.range P.num_resources).all fun r => decide (0 ≤ v.resources_needed r)

/-- The mask only rejects rows of non-main requests. -/
def only_non_main_rows : List Bool → List (Bool × Service) → Bool
  | b :: mask, q :: rs => (!b || !q.1) && only_non_main_rows mask rs
  | _, _ => true

theorem pair_sum_reject_le {M : Type} [OrderedAddCommMonoid M]
    (f : (Bool × Service) → Asg → M)
    (rs : List (Bool × Service)) (mask : List Bool) (pl : List Asg)
    (hnone : ∀ q ∈ rs, ∀ a, f q none ≤ f q a) :
    pair_sum f rs (reject_rows mask pl) ≤ pair_sum f rs pl := by
  induction pl generalizing rs mask with
  | nil => cases mask <;> exact le_refl _
  | cons a pl ih =>
      cases mask with
      | nil => exact le_refl _
      | cons b m =>
          cases rs with
          | nil => exact le_refl _
          | cons q rs =>
              have hq := hnone q (List.mem_cons_self q rs)
              have hrs : ∀ p ∈ rs, ∀ a, f p none ≤ f p a := fun p hp =>
                hnone p (List.mem_cons_of_mem q hp)
              show f q (if b then none else a) + _ ≤ f q a + _
              refine add_le_add ?_ (ih rs m hrs)
              cases b with
              | true => exact hq a
              | false => exact le_refl _

theorem reject_rows_nil_mask (pl : List Asg) : reject_rows [] pl = pl := by
  cases pl <;> rfl

theorem reject_rows_nil_list (mask : List Bool) : reject_rows mask [] = [] := by
  cases mask <;> rfl

theorem accepted_main_count_reject (rs : List (Bool × Service)) (mask : List Bool)
    (pl : List Asg) (h : only_non_main_rows mask rs = true) :
    accepted_main_count rs (reject_rows mask pl) = accepted_main_count rs pl := by
  induction pl generalizing rs mask with
  | nil => cases mask <;> rfl
  | cons a pl ih =>
      cases mask with
      | nil => rw [reject_rows_nil_mask]
      | cons b m =>
          cases rs with
          | nil => rfl
          | cons q rs =>
              simp only [only_non_main_rows, Bool.and_eq_true, Bool.or_eq_true,
                Bool.not_eq_true'] at h
              have ihx := ih rs m h.2
              show (accepted_main_count (q :: rs) ((if b then none else a) :: reject_rows m pl))
                = _
              simp only [accepted_main_count, pair_sum] at ihx ⊢
              rw [ihx]
              rcases h.1 with hb | hq
              · subst hb
                rfl
              · simp [hq]

theorem accepted_count_reject_le (mask : List Bool) (pl : List Asg) :
    accepted_count (reject_rows mask pl) ≤ accepted_count pl := by
  induction pl generalizing mask with
  | nil => cases mask <;> exact le_refl _
  | cons a pl ih =>
      cases mask with
      | nil => exact le_refl _
      | cons b m =>
          simp only [reject_rows, accepted_count]
          refine Nat.add_le_add ?_ (ih m)
          cases b <;> simp

theorem reject_rows_take (s : Nat) (mask : List Bool) (pl : List Asg) :
    (reject_rows mask pl).take s = reject_rows (mask.take s) (pl.take s) := by
  induction s generalizing mask pl with
  | zero => cases mask <;> cases pl <;> rfl
  | succ s ih =>
      cases pl with
      | nil => simp [reject_rows_nil_list]
      | cons a pl =>
          cases mask with
          | nil => simp [reject_rows_nil_mask]
          | cons b m => simp [reject_rows, List.take_succ_cons, ih]

theorem reject_rows_drop (s : Nat) (mask : List Bool) (pl : List Asg) :
    (reject_rows mask pl).drop s = reject_rows (mask.drop s) (pl.drop s) := by
  induction s generalizing mask pl with
  | zero => cases mask <;> cases pl <;> rfl
  | succ s ih =>
      cases pl with
      | nil => simp [reject_rows_nil_list]
      | cons a pl =>
          cases mask with
          | nil => simp [reject_rows_nil_mask]
          | cons b m => simp [reject_rows, List.drop_succ_cons, ih]

theorem excl_violations_reject_le (sizes : List Nat) (mask : List Bool) (pl : List Asg) :
    mutual_exclusivity_violations_count sizes (reject_rows mask pl) ≤
      mutual_exclusivity_violations_count sizes pl := by
  induction sizes generalizing mask pl with
  | nil => exact le_refl _
  | cons s rest ih =>
      simp only [mutual_exclusivity_violations_count, reject_rows_take, reject_rows_drop]
      exact Nat.add_le_add
        (Nat.sub_le_sub_right (accepted_count_reject_le _ _) 1) (ih _ _)

theorem accepted_main_count_le_accepted_count (rs : List (Bool × Service)) (pl : List Asg) :
    accepted_main_count rs pl ≤ accepted_count pl := by
  induction pl generalizing rs with
  | nil => cases rs <;> exact le_refl _
  | cons a pl ih =>
      cases rs with
      | nil => exact Nat.zero_le _
      | cons q rs =>
          simp only [accepted_main_count, pair_sum, accepted_count]
          refine Nat.add_le_add ?_ (ih rs)
          by_cases hq : (q.1 && a.isSome) = true
          · rw [Bool.and_eq_true] at hq
            simp [hq.1, hq.2]
          · rw [if_neg hq]
            exact Nat.zero_le _

theorem row_resources_nonneg (S : Service) (a : Asg) (n r : Nat)
    (h : ∀ v ∈ S.vnf_chain, 0 ≤ v.resources_needed r) :
    0 ≤ row_resources S a n r := by
  cases a with
  | none => exact le_refl 0
  | some path =>
      apply List.sum_nonneg
      intro x hx
      simp only [List.mem_map] at hx
      obtain ⟨⟨v, m⟩, hvm, rfl⟩ := hx
      have hv := (List.of_mem_zip hvm).1
      by_cases hn : m = n
      · simpa [hn] using h v hv
      · simp [hn]

theorem row_bandwidth_nonneg (S : Service) (a : Asg) (t h : Nat)
    (hb : ∀ b ∈ S.virtual_link_bw, 0 ≤ b) :
    0 ≤ row_bandwidth S a t h := by
  cases a with
  | none => exact le_refl 0
  | some path =>
      apply List.sum_nonneg
      intro x hx
      simp only [List.mem_map] at hx
      obtain ⟨⟨b, e⟩, hbe, rfl⟩ := hx
      have hbm := (List.of_mem_zip hbe).1
      by_cases he : e = (t, h)
      · simpa [he] using hb b hbm
      · simp [he]

theorem row_excess_latency_nonneg (P : Problem) (S : Service) (a : Asg) :
    0 ≤ row_excess_latency P S a := by
  cases a with
  | none => exact le_refl 0
  | some path => exact le_max_right _ _

theorem pair_sum_nonneg {M : Type} [OrderedAddCommMonoid M]
    (f : (Bool × Service) → Asg → M)
    (rs : List (Bool × Service)) (pl : List Asg)
    (h : ∀ q ∈ rs, ∀ a, 0 ≤ f q a) :
    0 ≤ pair_sum f rs pl := by
  induction pl generalizing rs with
  | nil => cases rs <;> exact le_refl _
  | cons a pl ih =>
      cases rs with
      | nil => exact le_refl _
      | cons q rs =>
          have := h q (List.mem_cons_self q rs) a
          have hrec := ih rs fun p hp => h p (List.mem_cons_of_mem q hp)
          calc (0 : M) = 0 + 0 := (add_zero 0).symm
            _ ≤ f q a + pair_sum f rs pl := add_le_add this hrec

theorem range_sum_nonneg {M : Type} [OrderedAddCommMonoid M] (n : Nat) (f : Nat → M)
    (h : ∀ i, 0 ≤ f i) : 0 ≤ range_sum n f :=
  List.sum_nonneg fun x hx => by
    obtain ⟨i, _, rfl⟩ := List.mem_map.mp hx
    exact h i

theorem range_sum_le {M : Type} [OrderedAddCommMonoid M] (n : Nat) (f g : Nat → M)
    (h : ∀ i, i < n → f i ≤ g i) : range_sum n f ≤ range_sum n g :=
  List.sum_le_sum fun i hi => h i (List.mem_range.mp hi)

theorem allocated_resources_reject_le (P : Problem) (mask : List Bool) (pl : List Asg)
    (n r : Nat)
    (hneed : ∀ q ∈ evaluated_requests P, ∀ v ∈ q.2.vnf_chain, 0 ≤ v.resources_needed r) :
    allocated_resources P (reject_rows mask pl) n r ≤ allocated_resources P pl n r :=
  pair_sum_reject_le _ _ mask pl fun q hq a =>
    row_resources_nonneg q.2 a n r (hneed q hq)

theorem allocated_bandwidth_reject_le (P : Problem) (mask : List Bool) (pl : List Asg)
    (t h : Nat)
    (hbw : ∀ q ∈ evaluated_requests P, ∀ b ∈ q.2.virtual_link_bw, 0 ≤ b) :
    allocated_bandwidth P (reject_rows mask pl) t h ≤ allocated_bandwidth P pl t h :=
  pair_sum_reject_le _ _ mask pl fun q hq a =>
    row_bandwidth_nonneg q.2 a t h (hbw q hq)

theorem cumulative_excess_latency_reject_le (P : Problem) (mask : List Bool)
    (pl : List Asg) :
    cumulative_excess_latency P (reject_rows mask pl) ≤ cumulative_excess_latency P pl :=
  pair_sum_reject_le _ _ mask pl fun q _ a => row_excess_latency_nonneg P q.2 a

theorem cumulative_excess_latency_nonneg (P : Problem) (pl : List Asg) :
    0 ≤ cumulative_excess_latency P pl :=
  pair_sum_nonneg _ _ pl fun q _ a => row_excess_latency_nonneg P q.2 a

theorem incompatible_count_reject_le (P : Problem) (mask : List Bool) (pl : List Asg) :
    incompatible_placements_count P (reject_rows mask pl) ≤
      incompatible_placements_count P pl :=
  pair_sum_reject_le _ _ mask pl fun q _ a => Nat.zero_le _

/-- Exactly-zero sums are preserved by dropping the rejected rows from the
resource accounting. -/
theorem resource_shortage_reject_zero (P : Problem) (mask : List Bool) (pl : List Asg)
    (hneed : nonneg_resource_demands P = true)
    (h0 : cumulative_resource_shortage P pl = 0) :
    cumulative_resource_shortage P (reject_rows mask pl) = 0 := by
  simp only [nonneg_resource_demands, List.all_eq_true, decide_eq_true_eq] at hneed
  have hle : cumulative_resource_shortage P (reject_rows mask pl) ≤
      cumulative_resource_shortage P pl := by
    apply range_sum_le
    intro n _
    apply range_sum_le
    intro r hr
    refine max_le_max (sub_le_sub_right ?_ _) (le_refl 0)
    exact allocated_resources_reject_le P mask pl n r fun q hq v hv =>
      hneed q hq v hv r (List.mem_range.mpr hr)
  have hnn : 0 ≤ cumulative_resource_shortage P (reject_rows mask pl) := by
    apply range_sum_nonneg
    intro n
    apply range_sum_nonneg
    intro r
    exact le_max_right _ _
  omega

theorem bandwidth_shortage_reject_le (P : Problem) (mask : List Bool) (pl : List Asg)
    (hbw : nonneg_virtual_bandwidths P = true) :
    cumulative_bandwidth_shortage P (reject_rows mask pl) ≤
      cumulative_bandwidth_shortage P pl := by
  simp only [nonneg_virtual_bandwidths, List.all_eq_true, decide_eq_true_eq] at hbw
  apply range_sum_le
  intro t _
  apply range_sum_le
  intro h _
  refine max_le_max (sub_le_sub_right ?_ _) (le_refl 0)
  exact allocated_bandwidth_reject_le P mask pl t h hbw

theorem bandwidth_shortage_nonneg (P : Problem) (pl : List Asg) :
    0 ≤ cumulative_bandwidth_shortage P pl := by
  apply range_sum_nonneg
  intro t
  apply range_sum_nonneg
  intro h
  exact le_max_right _ _

/-- The rounded-to-zero test is downward closed on non-negative values. -/
theorem rounds_to_zero_mono (x y : ℚ) (h0 : 0 ≤ x) (hxy : x ≤ y)
    (hy : rounds_to_zero y = true) : rounds_to_zero x = true := by
  simp only [rounds_to_zero, decide_eq_true_eq, abs_le] at hy ⊢
  constructor
  · linarith [hy.1]
  · linarith [hy.2]

/-- Rejecting only non-main rows cannot lower the accepted-main ratio below
the floor. -/
theorem ratio_floor_reject (P : Problem) (mask : List Bool) (pl : List Asg)
    (hmask : only_non_main_rows mask (evaluated_requests P) = true)
    (h : P.minimum_ratio_of_main_requests ≤ ratio_of_accepted_main_requests P pl) :
    P.minimum_ratio_of_main_requests ≤
      ratio_of_accepted_main_requests P (reject_rows mask pl) := by
  have hm := accepted_main_count_reject (evaluated_requests P) mask pl hmask
  have ha := accepted_count_reject_le mask pl
  have hma := accepted_main_count_le_accepted_count (evaluated_requests P)
    (reject_rows mask pl)
  unfold ratio_of_accepted_main_requests at h ⊢
  by_cases h0 : accepted_count (reject_rows mask pl) = 0
  · rw [if_pos h0]
    by_cases ha0 : accepted_count pl = 0
    · rwa [if_pos ha0] at h
    · rw [if_neg ha0] at h
      have hm0 : accepted_main_count (evaluated_requests P) pl = 0 := by omega
      rw [hm0] at h
      simpa using h
  · rw [if_neg h0, hm]
    have ha0 : accepted_count pl ≠ 0 := by omega
    rw [if_neg ha0] at h
    refine le_trans h ?_
    have hpos : (0 : ℚ) < (accepted_count (reject_rows mask pl) : ℚ) := by
      exact_mod_cast Nat.pos_of_ne_zero h0
    have hcast : ((accepted_count (reject_rows mask pl) : ℚ)) ≤ (accepted_count pl : ℚ) := by
      exact_mod_cast ha
    have hnum : (0 : ℚ) ≤ (accepted_main_count (evaluated_requests P) pl : ℚ) := by
      positivity
    exact div_le_div_of_nonneg_left hnum hpos hcast

/-- Claim C2 counterexample: on a one-node instance with ratio floor 1/2, the
placement accepting the single main request is valid, but rejecting that
(main) row yields the all-rejected placement, which is invalid: rejection
can break the main-ratio floor even though every other constraint is
preserved. -/
theorem rejecting_main_row_can_invalidate :
    is_valid one_main_problem_half [some [0, 0, 0]] = true ∧
    reject_rows [true] [some [0, 0, 0]] = [none] ∧
    is_valid one_main_problem_half (reject_rows [true] [some [0, 0, 0]]) = false := by
  refine ⟨?_, rfl, ?_⟩ <;>
    norm_num [is_valid, is_valid_base, one_main_problem_half, cumulative_resource_shortage,
      cumulative_bandwidth_shortage, cumulative_excess_latency, incompatible_placements_count,
      range_sum, List.range_succ, allocated_resources, allocated_bandwidth, pair_sum,
      evaluated_requests, unit_service, unit_vnf, row_resources, row_bandwidth,
      row_excess_latency, row_latency, path_pairs, interior, row_incompatible,
      rounds_to_zero, mutual_exclusivity_violations_count, group_sizes, reject_rows,
      accepted_count, ratio_of_accepted_main_requests, accepted_main_count]

/-- Claim C2 (amended): starting from any valid placement, rejecting any set
of full rows none of which belongs to a main request yields a valid
placement; for arbitrary rejected rows all validity conjuncts except the
main-ratio floor are preserved (non-negative demands and virtual-link
bandwidths per the data model), but rejecting a main row can break the
floor. -/
theorem rejecting_non_main_rows_preserves_validity
    (P : Problem) (mask : List Bool) (pl : List Asg)
    (hneed : nonneg_resource_demands P = true)
    (hbw : nonneg_virtual_bandwidths P = true)
    (hmask : only_non_main_rows mask (evaluated_requests P) = true)
    (hv : is_valid P pl = true) :
    is_valid P (reject_rows mask pl) = true := by
  simp only [is_valid, is_valid_base, Bool.and_eq_true, beq_iff_eq,
    decide_eq_true_eq] at hv ⊢
  obtain ⟨⟨⟨⟨hres, hlat⟩, hbws⟩, hinc⟩, hexcl, hratio⟩ := hv
  refine ⟨⟨⟨⟨?_, ?_⟩, ?_⟩, ?_⟩, ?_, ?_⟩
  · exact resource_shortage_reject_zero P mask pl hneed hres
  · exact rounds_to_zero_mono _ _ (cumulative_excess_latency_nonneg P _)
      (cumulative_excess_latency_reject_le P mask pl) hlat
  · exact rounds_to_zero_mono _ _ (bandwidth_shortage_nonneg P _)
      (bandwidth_shortage_reject_le P mask pl hbw) hbws
  · exact Nat.le_antisymm
      (hinc ▸ incompatible_count_reject_le P mask pl) (Nat.zero_le _)
  · exact Nat.le_antisymm
      (hexcl ▸ excl_violations_reject_le (group_sizes P) mask pl) (Nat.zero_le _)
  · exact ratio_floor_reject P mask pl hmask hratio

/-- Two mutually exclusive groups over one node: a lone main and a main with
one alternative; ratio floor 1/2. -/
def two_group_problem : Problem :=
  ⟨1, 1, fun _ _ => 5, fun _ _ => 0, fun _ _ => 10,
    [(unit_service, []), (unit_service, [unit_service])], 1 / 2⟩

/-- Witness for the amended C2 theorem: starting from the valid placement
that accepts the first main and the second group's alternative, rejecting
the alternative's (non-main) row yields a valid placement. -/
theorem rejecting_non_main_rows_preserves_validity_witness :
    is_valid two_group_problem
      (reject_rows [false, false, true] [some [0, 0, 0], none, some [0, 0, 0]]) = true :=
  rejecting_non_main_rows_preserves_validity two_group_problem [false, false, true]
    [some [0, 0, 0], none, some [0, 0, 0]]
    (by decide)
    (by norm_num [nonneg_virtual_bandwidths, evaluated_requests, two_group_problem,
      unit_service])
    (by decide)
    (by norm_num [is_valid, is_valid_base, two_group_problem, cumulative_resource_shortage,
      cumulative_bandwidth_shortage, cumulative_excess_latency, incompatible_placements_count,
      range_sum, List.range_succ, allocated_resources, allocated_bandwidth, pair_sum,
      evaluated_requests, unit_service, unit_vnf, row_resources, row_bandwidth,
      row_excess_latency, row_latency, path_pairs, interior, row_incompatible,
      rounds_to_zero, mutual_exclusivity_violations_count, group_sizes,
      accepted_count, ratio_of_accepted_main_requests, accepted_main_count])

/-! The placement-matrix representation: decoding
(`_parse_placement_matrix` / the GA `decoding_function`) and encoding
(`placement_matrix`). -/

/-- Decoding of one matrix row: when every cell is non-negative the request is
accepted and its designated node list is the ingress node, the node of each
cell, and the egress node; otherwise (any negative cell, malformed rows
included) the entry stays at its `None` default. -/
def parse_row (S : Service) (row : List Int) : Asg :=
  if row.all (fun c => 0 ≤ c) then
    some (S.ingress :: (row.map Int.toNat ++ [S.egress]))
  else none

/-- `_parse_placement_matrix`: the i-th matrix row is decoded for the i-th
evaluated request; requests beyond the matrix keep the `None` that
`dict.fromkeys(requests, None)` assigned. -/
def parse_placement_matrix : List (Bool × Service) → List (List Int) → List Asg
  | [], _ => []
  | _ :: rs, [] => none :: parse_placement_matrix rs []
  | q :: rs, row :: M => parse_row q.2 row :: parse_placement_matrix rs M

/-- The index of a substrate node in the sorted node list
(`sorted_nodes.index(node)`). -/
def sorted_node_index (P : Problem) (n : Nat) : Int :=
  (List.indexOf n (List.range P.num_nodes) : Int)

/-- One row of the `placement_matrix` property: a row of -1s of the chain's
length for a rejected request, otherwise the sorted-node index of each
interior designated node. -/
def placement_matrix_row (P : Problem) (S : Service) (a : Asg) : List Int :=
  match a with
  | none => List.replicate S.vnf_chain.length (-1)
  | some path => (interior path).map fun n => sorted_node_index P n

/-- The `placement_matrix` property: one encoded row per evaluated request, in
`designated_nodes_per_request` order. -/
def placement_matrix (P : Problem) : List (Bool × Service) → List Asg → List (List Int)
  | [], _ => []
  | q :: rs, [] => placement_matrix_row P q.2 none :: placement_matrix P rs []
  | q :: rs, a :: pl => placement_matrix_row P q.2 a :: placement_matrix P rs pl

theorem indexOf_succ_map (m : Nat) (l : List Nat) :
    List.indexOf (m + 1) (l.map Nat.succ) = List.indexOf m l := by
  induction l with
  | nil => rfl
  | cons a l ih =>
      by_cases h : a = m
      · subst h
        rw [List.map_cons]
        rw [show Nat.succ a = a + 1 from rfl]
        rw [List.indexOf_cons_self, List.indexOf_cons_self]
      · rw [List.map_cons, List.indexOf_cons_ne _ (by omega), List.indexOf_cons_ne _ h, ih]

theorem indexOf_range (n N : Nat) (h : n < N) : List.indexOf n (List.range N) = n := by
  induction N generalizing n with
  | zero => omega
  | succ N ih =>
      rw [List.range_succ_eq_map]
      cases n with
      | zero => exact List.indexOf_cons_self 0 _
      | succ m =>
          rw [List.indexOf_cons_ne _ (by omega), indexOf_succ_map, ih m (by omega)]

/-- A decodable-and-re-encodable row: either all cells name existing sorted
nodes, or the row is the fully rejected row of the chain's length. -/
def row_well_formed (P : Problem) (S : Service) (row : List Int) : Bool :=
  row.all (fun c => decide (0 ≤ c) && decide (c < (P.num_nodes : Int))) ||
    row == List.replicate S.vnf_chain.length (-1)

/-- Row-by-row well-formedness of a matrix for a request list (also forces
one row per request). -/
def matrix_well_formed (P : Problem) : List (Bool × Service) → List (List Int) → Bool
  | [], [] => true
  | q :: rs, row :: M => row_well_formed P q.2 row && matrix_well_formed P rs M
  | _, _ => false

theorem roundtrip_row (P : Problem) (S : Service) (row : List Int)
    (hwf : row_well_formed P S row = true) :
    placement_matrix_row P S (parse_row S row) = row := by
  simp only [row_well_formed, Bool.or_eq_true, beq_iff_eq] at hwf
  rcases hwf with hall | hrep
  · simp only [List.all_eq_true, Bool.and_eq_true, decide_eq_true_eq] at hall
    have hnn : row.all (fun c => decide (0 ≤ c)) = true := by
      simp only [List.all_eq_true, decide_eq_true_eq]
      intro c hc
      exact (hall c hc).1
    rw [parse_row, if_pos hnn]
    simp only [placement_matrix_row, interior, List.drop_succ_cons, List.drop_zero,
      List.dropLast_concat, List.map_map]
    have hfix : ∀ c ∈ row, ((fun n => sorted_node_index P n) ∘ Int.toNat) c = id c := by
      intro c hc
      have h1 := (hall c hc).1
      have h2 := (hall c hc).2
      simp only [Function.comp, id]
      rw [sorted_node_index, indexOf_range c.toNat P.num_nodes (by omega)]
      omega
    exact (List.map_congr_left hfix).trans (List.map_id row)
  · subst hrep
    rcases Nat.eq_zero_or_pos S.vnf_chain.length with hk | hk
    · rw [hk]
      simp [parse_row, placement_matrix_row, interior]
    · have hneg :
          ((List.replicate S.vnf_chain.length (-1 : Int)).all fun c => decide (0 ≤ c))
            = false := by
        obtain ⟨k, hk2⟩ : ∃ k, S.vnf_chain.length = k + 1 :=
          ⟨S.vnf_chain.length - 1, by omega⟩
        rw [hk2]
        simp
      simp [parse_row, hneg, placement_matrix_row]

/-- Claim C7 (amended): for every matrix with one row per evaluated request
in which every row either names existing sorted nodes in all cells or is the
fully rejected all-(-1) row of its chain's length, decoding then re-encoding
returns the original matrix.  (Partially negative rows decode to rejection
and re-encode as all -1s, so the unrestricted round-trip fails.) -/
theorem decode_encode_roundtrip (P : Problem) (rs : List (Bool × Service))
    (M : List (List Int)) (hwf : matrix_well_formed P rs M = true) :
    placement_matrix P rs (parse_placement_matrix rs M) = M := by
  induction rs generalizing M with
  | nil =>
      cases M with
      | nil => rfl
      | cons row M => exact absurd hwf (by simp [matrix_well_formed])
  | cons q rs ih =>
      cases M with
      | nil => exact absurd hwf (by simp [matrix_well_formed])
      | cons row M =>
          simp only [matrix_well_formed, Bool.and_eq_true] at hwf
          simp only [parse_placement_matrix, placement_matrix]
          rw [roundtrip_row P q.2 row hwf.1, ih M hwf.2]

/-- A service with a two-VNF chain anchored at node 0. -/
def two_vnf_service : Service := ⟨0, 0, [unit_vnf, unit_vnf], [1, 1, 1], 0⟩

/-- One node, one resource, a single main request with a two-VNF chain,
ratio floor 0. -/
def round_trip_problem : Problem :=
  ⟨1, 1, fun _ _ => 5, fun _ _ => 0, fun _ _ => 10, [(two_vnf_service, [])], 0⟩

/-- Claim C7 counterexample: the partially negative row [-1, 0] decodes to a
rejected request, giving a placement that is valid (ratio floor 0), yet
re-encoding returns the all-(-1) row, not the original matrix: the
decode-then-encode round-trip is not the identity on every matrix whose
decoded placement is valid. -/
theorem roundtrip_not_identity_on_partially_negative_row :
    is_valid round_trip_problem
      (parse_placement_matrix (evaluated_requests round_trip_problem) [[-1, 0]]) = true ∧
    placement_matrix round_trip_problem (evaluated_requests round_trip_problem)
      (parse_placement_matrix (evaluated_requests round_trip_problem) [[-1, 0]])
      ≠ [[-1, 0]] := by
  constructor
  · norm_num [is_valid, is_valid_base, round_trip_problem, cumulative_resource_shortage,
      cumulative_bandwidth_shortage, cumulative_excess_latency, incompatible_placements_count,
      range_sum, List.range_succ, allocated_resources, allocated_bandwidth, pair_sum,
      evaluated_requests, two_vnf_service, unit_vnf, row_resources, row_bandwidth,
      row_excess_latency, row_latency, path_pairs, interior, row_incompatible,
      rounds_to_zero, mutual_exclusivity_violations_count, group_sizes,
      accepted_count, ratio_of_accepted_main_requests, accepted_main_count,
      parse_placement_matrix, parse_row]
  · decide

/-- Witness for the amended C7 theorem: the well-formed matrix [[0, 0]]
round-trips to itself. -/
theorem decode_encode_roundtrip_witness :
    matrix_well_formed round_trip_problem (evaluated_requests round_trip_problem)
      [[0, 0]] = true ∧
    placement_matrix round_trip_problem (evaluated_requests round_trip_problem)
      (parse_placement_matrix (evaluated_requests round_trip_problem) [[0, 0]])
      = [[0, 0]] :=
  ⟨by decide,
    decode_encode_roundtrip round_trip_problem (evaluated_requests round_trip_problem)
      [[0, 0]] (by decide)⟩

theorem parse_row_eq_none_iff (S : Service) (row : List Int) :
    parse_row S row = none ↔ ¬ (row.all fun c => decide (0 ≤ c)) = true := by
  unfold parse_row
  by_cases h : (row.all fun c => decide (0 ≤ c)) = true
  · simp [h]
  · simp [h]

/-- Claim C8: a matrix row decodes to a rejected request (entry None) exactly
when not all of its cells are non-negative; this covers partially negative
rows (rejection) and rows of every length, including the empty row, which
has all cells vacuously non-negative and so decodes to an accepted request. -/
theorem row_rejected_iff_not_all_nonneg (rs : List (Bool × Service))
    (M : List (List Int)) (i : Nat) (q : Bool × Service) (row : List Int)
    (hq : rs.get? i = some q) (hrow : M.get? i = some row) :
    ((parse_placement_matrix rs M).get? i = some none ↔
      ¬ (row.all fun c => decide (0 ≤ c)) = true) := by
  induction i generalizing rs M with
  | zero =>
      cases rs with
      | nil => simp at hq
      | cons q0 rs =>
          cases M with
          | nil => simp at hrow
          | cons row0 M =>
              rw [List.get?_cons_zero] at hq hrow
              injection hq with hq
              injection hrow with hrow
              subst hq
              subst hrow
              show (parse_row q0.2 row0 :: parse_placement_matrix rs M).get? 0
                = some none ↔ _
              rw [List.get?_cons_zero]
              simp only [Option.some.injEq]
              exact parse_row_eq_none_iff q0.2 row0
  | succ i ih =>
      cases rs with
      | nil => simp at hq
      | cons q0 rs =>
          cases M with
          | nil => simp at hrow
          | cons row0 M =>
              rw [List.get?_cons_succ] at hq hrow
              show (parse_row q0.2 row0 :: parse_placement_matrix rs M).get? (i + 1)
                = some none ↔ _
              rw [List.get?_cons_succ]
              exact ih rs M hq hrow

/-- Witness for the C8 theorem: the partially negative row [-1, 0] decodes to
rejection. -/
theorem row_rejected_iff_not_all_nonneg_witness :
    (parse_placement_matrix (evaluated_requests round_trip_problem) [[-1, 0]]).get? 0
      = some none :=
  (row_rejected_iff_not_all_nonneg (evaluated_requests round_trip_problem) [[-1, 0]] 0
    (true, two_vnf_service) [-1, 0] rfl rfl).mpr (by decide)

/-! The matrix row-swap crossover operator. -/

/-- `collection_utils.swap_elements_inside_interval` with Python slice
semantics: the slices [start:end] of the two lists are exchanged. -/
def swap_elements_inside_interval {α : Type} (a b : List α) (s e : Nat) :
    List α × List α :=
  (a.take s ++ ((b.take e).drop s) ++ a.drop e,
   b.take s ++ ((a.take e).drop s) ++ b.drop e)

/-- First row index of a mutually exclusive group (groups are contiguous row
blocks, so min(group) is the sum of the preceding sizes). -/
def group_start (sizes : List Nat) (g : Nat) : Nat := (sizes.take g).sum

/-- One past the last row index of a mutually exclusive group
(max(group) + 1). -/
def group_stop (sizes : List Nat) (g : Nat) : Nat :=
  group_start sizes g + sizes.getD g 0

/-- Whether any gene of rows [s, e) of the matrix is non-negative. -/
def any_accepted_rows (m : List (List Int)) (s e : Nat) : Bool :=
  ((m.take e).drop s).any fun row => row.any fun g => decide (0 ≤ g)

/-- Validity of the placement a chromosome's gene matrix decodes to (the
crossover decodes each child with the GA decoding_function and asks
is_valid). -/
def matrix_is_valid (P : Problem) (m : List (List Int)) : Bool :=
  is_valid P (parse_placement_matrix (evaluated_requests P) m)

/-- `MatrixRowSwapCrossoverOperator.__call__` with the shuffled group order as
an explicit parameter: each attempt starts from the original parent
matrices, swaps one group's row block, and commits when both children decode
to valid placements; groups in which neither parent has a non-negative gene
are skipped; when no attempt commits, the children are copies of the two
parents. -/
def row_swap_crossover (P : Problem) (m1 m2 : List (List Int)) :
    List Nat → List (List Int) × List (List Int)
  | [] => (m1, m2)
  | g :: rest =>
      if any_accepted_rows m1 (group_start (group_sizes P) g) (group_stop (group_sizes P) g)
          || any_accepted_rows m2 (group_start (group_sizes P) g)
              (group_stop (group_sizes P) g) then
        if matrix_is_valid P (swap_elements_inside_interval m1 m2
              (group_start (group_sizes P) g) (group_stop (group_sizes P) g)).1
            && matrix_is_valid P (swap_elements_inside_interval m1 m2
              (group_start (group_sizes P) g) (group_stop (group_sizes P) g)).2 then
          swap_elements_inside_interval m1 m2
            (group_start (group_sizes P) g) (group_stop (group_sizes P) g)
        else row_swap_crossover P m1 m2 rest
      else row_swap_crossover P m1 m2 rest

/-- Claim C6: for every pair of parent matrices and every group order, the
row-swap crossover emits either two children that both decode to valid
placements or exact copies of the two parents.  (The operator never mutates
the parents: each attempt slices fresh lists from the originals.) -/
theorem row_swap_crossover_valid_or_parents (P : Problem)
    (m1 m2 : List (List Int)) (order : List Nat) :
    row_swap_crossover P m1 m2 order = (m1, m2) ∨
      (matrix_is_valid P (row_swap_crossover P m1 m2 order).1 = true ∧
        matrix_is_valid P (row_swap_crossover P m1 m2 order).2 = true) := by
  induction order with
  | nil => exact Or.inl rfl
  | cons g rest ih =>
      unfold row_swap_crossover
      by_cases h1 : (any_accepted_rows m1 (group_start (group_sizes P) g)
          (group_stop (group_sizes P) g)
          || any_accepted_rows m2 (group_start (group_sizes P) g)
              (group_stop (group_sizes P) g)) = true
      · rw [if_pos h1]
        by_cases h2 : (matrix_is_valid P (swap_elements_inside_interval m1 m2
              (group_start (group_sizes P) g) (group_stop (group_sizes P) g)).1
            && matrix_is_valid P (swap_elements_inside_interval m1 m2
              (group_start (group_sizes P) g) (group_stop (group_sizes P) g)).2) = true
        · rw [if_pos h2]
          rw [Bool.and_eq_true] at h2
          exact Or.inr h2
        · rw [if_neg h2]
          exact ih
      · rw [if_neg h1]
        exact ih

/-! Exponential rank selection and the stochastic-universal-sampling
precondition. -/

/-- The selection probabilities ExponentialRankSelectionOperator computes for
a sorted population of n chromosomes: rank i+1 receives
(alpha - 1) * alpha^i / (alpha^selection_size - 1).  The denominator uses the
requested selection size, not the population size n. -/
def exponential_rank_probabilities (n selection_size : Nat) (alpha : ℚ) : List ℚ :=
  (List.range n).map fun i =>
    (alpha - 1) * alpha ^ i / (alpha ^ selection_size - 1)

/-- Python's round() to the nearest integer, halves to even. -/
def python_round (q : ℚ) : Int :=
  if q - ⌊q⌋ < 1 / 2 then ⌊q⌋
  else if q - ⌊q⌋ > 1 / 2 then ⌊q⌋ + 1
  else if ⌊q⌋ % 2 = 0 then ⌊q⌋ else ⌊q⌋ + 1

/-- The guard at the top of `_stochastic_universal_sampling`: when
round(sum(selection_probabilities)) != 1 a ValueError is raised. -/
def sus_precondition_holds (probabilities : List ℚ) : Bool :=
  python_round probabilities.sum == 1

/-- Claim C9 evaluated at the failing input: for a population of 2
chromosomes, selection size 1 and pressure parameter 1/2, the probabilities
are [1, 1/2]; they sum to 3/2, not 1, and round(3/2) = 2, so the
stochastic-universal-sampling precondition check raises a ValueError.  The
denominator alpha^selection_size should have been alpha^len(population)
(the spec's alpha^N), which makes the sum telescope to exactly 1. -/
theorem exponential_rank_probabilities_sum_violation :
    (exponential_rank_probabilities 2 1 (1 / 2)).sum = 3 / 2 ∧
    sus_precondition_holds (exponential_rank_probabilities 2 1 (1 / 2)) = false := by
  have hsum : (exponential_rank_probabilities 2 1 (1 / 2)).sum = 3 / 2 := by
    norm_num [exponential_rank_probabilities, List.range_succ]
  refine ⟨hsum, ?_⟩
  have hf : ⌊(3 : ℚ) / 2⌋ = 1 := by
    rw [Int.floor_eq_iff]
    norm_num
  have hr : python_round ((3 : ℚ) / 2) = 2 := by
    rw [python_round, hf]
    norm_num
  unfold sus_precondition_holds
  rw [hsum, hr]
  rfl

/-! NetworkLink equality and hashing (`topology.Link`, `network.NetworkLink`,
`Topology.links_by_endpoints`). -/

/-- A NetworkNode as `__eq__`/`__hash__` see it: by label only. -/
structure PyNetworkNode where
  label : String

/-- A NetworkLink: ordered (tail, head) endpoints plus the attributes that
`Link.__eq__` ignores. -/
structure PyNetworkLink where
  tail : PyNetworkNode
  head : PyNetworkNode
  latency : ℚ
  bandwidth : ℚ
  bandwidth_unit_cost : ℚ

/-- `Link.__eq__`: set(self.endpoints) == set(other.endpoints), with node
equality by label.  The disjunction below is exactly equality of the (at
most two element) endpoint sets, degenerate self-loop cases included. -/
def link_eq (l1 l2 : PyNetworkLink) : Bool :=
  (l1.tail.label == l2.tail.label && l1.head.label == l2.head.label) ||
  (l1.tail.label == l2.head.label && l1.head.label == l2.tail.label)

/-- `Link.__hash__` returns hash(self.endpoints): a function of the ordered
(tail, head) pair of node hashes, i.e. of this ordered label pair. -/
def link_hash_key (l : PyNetworkLink) : String × String :=
  (l.tail.label, l.head.label)

/-- Claim C10: for any two nodes with distinct labels and any attribute
values, the oppositely directed links compare equal (equality is unordered
and ignores attributes) while their hashes are computed from different
ordered endpoint tuples — equal links with distinct hash inputs, violating
the hash-consistency contract that link sets and link-keyed dictionaries
rely on. -/
theorem link_eq_unordered_but_hash_ordered (a b : String) (hab : a ≠ b)
    (la ba ca lb bb cb : ℚ) :
    link_eq ⟨⟨a⟩, ⟨b⟩, la, ba, ca⟩ ⟨⟨b⟩, ⟨a⟩, lb, bb, cb⟩ = true ∧
    link_hash_key ⟨⟨a⟩, ⟨b⟩, la, ba, ca⟩ ≠ link_hash_key ⟨⟨b⟩, ⟨a⟩, lb, bb, cb⟩ := by
  constructor
  · simp [link_eq]
  · simp only [link_hash_key, ne_eq, Prod.mk.injEq, not_and]
    intro h
    exact absurd h hab

/-- Witness for the C10 theorem at concrete labels. -/
theorem link_eq_unordered_but_hash_ordered_witness :
    link_eq ⟨⟨"a"⟩, ⟨"b"⟩, 0, 0, 0⟩ ⟨⟨"b"⟩, ⟨"a"⟩, 1, 2, 3⟩ = true ∧
    link_hash_key ⟨⟨"a"⟩, ⟨"b"⟩, 0, 0, 0⟩ ≠ link_hash_key ⟨⟨"b"⟩, ⟨"a"⟩, 1, 2, 3⟩ :=
  link_eq_unordered_but_hash_ordered "a" "b" (by decide) 0 0 0 1 2 3

/-! The incremental request accepter (`request_accepter.py`).  The shuffled
node order drawn for each chain position is an explicit parameter
`orders : Nat -> List Nat` (position -> candidate node order), so the
theorems quantify over every behaviour of the random shuffles. -/

/-- The Python exceptions the accepter can raise: the explicit ValueError of
the precondition checks, and the UnboundLocalError that reading the loop
variable `incoming_virtual_link` after a zero-iteration loop raises. -/
inductive PyError where
  | value_error : PyError
  | unbound_local_error : PyError
deriving DecidableEq

/-- The accepter's state: the committed `current_placement` and the local
residual tables `_remaining_resources_per_node` and
`_remaining_bandwidth_per_network_link`. -/
structure AccepterState where
  current_placement : List Asg
  remaining_resources : Nat → Nat → Int
  remaining_bandwidth : Nat → Nat → ℚ

/-- The committed placement's `remaining_resources_per_node`. -/
def committed_remaining_resources (P : Problem) (pl : List Asg) (n r : Nat) : Int :=
  P.capacity n r - allocated_resources P pl n r

/-- The committed placement's `remaining_bandwidth_per_network_link`. -/
def committed_remaining_bandwidth (P : Problem) (pl : List Asg) (t h : Nat) : ℚ :=
  P.link_bandwidth t h - allocated_bandwidth P pl t h

/-- `RequestAccepter.__init__`: local residuals start as copies of the
committed placement's residuals. -/
def init_accepter (P : Problem) (pl : List Asg) : AccepterState :=
  ⟨pl, committed_remaining_resources P pl, committed_remaining_bandwidth P pl⟩

/-- The (start, size) bounds of the mutually exclusive group containing
request index i (None when i is beyond every group), mirroring the lookup
over `mutually_exclusive_requests_groups`. -/
def group_bounds : List Nat → Nat → Option (Nat × Nat)
  | [], _ => none
  | s :: rest, i =>
      if i < s then some (0, s)
      else (group_bounds rest (i - s)).map fun p => (p.1 + s, p.2)

/-- `_are_mutually_exclusive_requests_rejected`: every other member of the
group containing request i is currently rejected (a request in no group is
vacuously compatible, the source's empty-group default). -/
def mutually_exclusive_requests_rejected (P : Problem) (pl : List Asg) (i : Nat) : Bool :=
  match group_bounds (group_sizes P) i with
  | none => true
  | some (s, len) =>
      (List.range len).all fun o =>
        (s + o == i) || ((pl.get? (s + o)).getD none).isNone

/-- Whether the request at index i is a MainServiceRequest (the first member
of its group). -/
def request_is_main (P : Problem) (i : Nat) : Bool :=
  (((evaluated_requests P).get? i).map fun q => q.1).getD false

/-- `_would_accepting_request_meet_minimum_main_request_ratio`: skipped for a
main request; otherwise the hypothetical ratio
accepted_main / (accepted + 1) must reach the floor. -/
def would_meet_minimum_main_ratio (P : Problem) (pl : List Asg) (i : Nat) : Bool :=
  if request_is_main P i then true
  else
    decide (P.minimum_ratio_of_main_requests ≤
      (accepted_main_count (evaluated_requests P) pl : ℚ) / ((accepted_count pl : ℚ) + 1))

/-- `_is_request_compatible_with_currently_accepted_requests`. -/
def request_compatible (P : Problem) (pl : List Asg) (i : Nat) : Bool :=
  mutually_exclusive_requests_rejected P pl i && would_meet_minimum_main_ratio P pl i

/-- `_network_node_has_sufficient_resources`: component-wise non-negativity of
the local residual minus the demand. -/
def node_has_sufficient_resources (P : Problem) (res : Nat → Nat → Int)
    (n : Nat) (v : Vnf) : Bool :=
  (List.range P.num_resources).all fun r => decide (0 ≤ res n r - v.resources_needed r)

/-- `_network_node_is_compatible_with_vnf`. -/
def node_compatible_with_vnf (n : Nat) (v : Vnf) : Bool :=
  ! v.incompatible_nodes.contains n

/-- `_incoming_network_link_is_suitable`: enough residual bandwidth for the
virtual link and link latency within the remaining tolerance. -/
def incoming_link_suitable (P : Problem) (bw : Nat → Nat → ℚ) (t h : Nat)
    (virtual_bw remaining_latency : ℚ) : Bool :=
  decide (virtual_bw ≤ bw t h) && decide (P.link_latency t h ≤ remaining_latency)

/-- `_network_node_is_suitable`. -/
def node_suitable (P : Problem) (res : Nat → Nat → Int) (bw : Nat → Nat → ℚ)
    (cur n : Nat) (v : Vnf) (virtual_bw remaining_latency : ℚ) : Bool :=
  node_has_sufficient_resources P res n v && node_compatible_with_vnf n v &&
    incoming_link_suitable P bw cur n virtual_bw remaining_latency

/-- The resource table after subtracting v's demands at node n. -/
def update_resources (res : Nat → Nat → Int) (n : Nat) (v : Vnf) : Nat → Nat → Int :=
  fun n2 r => if n2 = n then res n r - v.resources_needed r else res n2 r

/-- The bandwidth table after subtracting the virtual link's bandwidth on
link (t, h). -/
def update_bandwidth (bw : Nat → Nat → ℚ) (t h : Nat) (virtual_bw : ℚ) :
    Nat → Nat → ℚ :=
  fun t2 h2 => if t2 = t ∧ h2 = h then bw t h - virtual_bw else bw t2 h2

/-- What the chain-walk loop carries when it finishes: the chosen node list
(ingress first), the last chosen node, the remaining latency tolerance, the
updated local tables, and the loop variable `incoming_virtual_link`'s
bandwidth — None when the loop ran zero iterations, in which case reading it
raises. -/
structure WalkResult where
  nodes : List Nat
  cur : Nat
  remaining_latency : ℚ
  res : Nat → Nat → Int
  bw : Nat → Nat → ℚ
  last_virtual_bw : Option ℚ

/-- The for-loop of `_find_suitable_nodes_for_request`: each VNF (paired with
its incoming virtual link's bandwidth) takes the first suitable node of that
step's shuffled order; the local residuals and the latency tolerance are
decremented and the walk advances; None when some VNF has no suitable
node. -/
def walk_chain (P : Problem) (orders : Nat → List Nat) :
    List (Vnf × ℚ) → Nat → Nat → ℚ → (Nat → Nat → Int) → (Nat → Nat → ℚ) →
      List Nat → Option ℚ → Option WalkResult
  | [], _, cur, lat, res, bw, acc, last => some ⟨acc, cur, lat, res, bw, last⟩
  | (v, vbw) :: rest, step, cur, lat, res, bw, acc, last =>
      match (orders step).find? (fun n => node_suitable P res bw cur n v vbw lat) with
      | none => none
      | some n =>
          walk_chain P orders rest (step + 1) n (lat - P.link_latency cur n)
            (update_resources res n v) (update_bandwidth bw cur n vbw)
            (acc ++ [n]) (some vbw)

/-- The restored local tables used when the search aborts: copies of the
committed placement's residuals. -/
def restored_tables (P : Problem) (st : AccepterState) :
    (Nat → Nat → Int) × (Nat → Nat → ℚ) :=
  (committed_remaining_resources P st.current_placement,
    committed_remaining_bandwidth P st.current_placement)

/-- The for-else branch of `_find_suitable_nodes_for_request`: the egress
link is checked against the loop's final `incoming_virtual_link` (the
virtual link entering the LAST VNF, not the egress virtual link; unbound
when the chain is empty, raising UnboundLocalError) and the egress link's
bandwidth is never subtracted from the local residuals. -/
def egress_link_check (P : Problem) (st : AccepterState) (S : Service)
    (w : WalkResult) :
    Except PyError (Option (List Nat) × (Nat → Nat → Int) × (Nat → Nat → ℚ)) :=
  match w.last_virtual_bw with
  | none => .error .unbound_local_error
  | some lvbw =>
      if incoming_link_suitable P w.bw w.cur S.egress lvbw w.remaining_latency then
        .ok (some (w.nodes ++ [S.egress]), w.res, w.bw)
      else .ok (none, (restored_tables P st).1, (restored_tables P st).2)

/-- `_find_suitable_nodes_for_request`: the chain walk, then the egress-link
check; on failure the local tables are restored to the committed
placement's residuals. -/
def find_suitable_nodes (P : Problem) (st : AccepterState) (S : Service)
    (orders : Nat → List Nat) :
    Except PyError (Option (List Nat) × (Nat → Nat → Int) × (Nat → Nat → ℚ)) :=
  match walk_chain P orders (S.vnf_chain.zip S.virtual_link_bw) 0 S.ingress
      S.maximum_tolerated_latency st.remaining_resources st.remaining_bandwidth
      [S.ingress] none with
  | none => .ok (none, (restored_tables P st).1, (restored_tables P st).2)
  | some w => egress_link_check P st S w

/-- The Service of the request at index i. -/
def request_service (P : Problem) (i : Nat) : Option Service :=
  ((evaluated_requests P).get? i).map fun q => q.2

/-- `RequestAccepter.accept`: ValueError on an unknown or already-accepted
request; otherwise the compatibility checks, then the node search; on
success the committed placement is replaced by a new snapshot with the
request's entry filled in and the walk's local tables are kept (they are not
resynchronised with the new snapshot). -/
def accept (P : Problem) (st : AccepterState) (i : Nat) (orders : Nat → List Nat) :
    Except PyError (Bool × AccepterState) :=
  match st.current_placement.get? i with
  | none => .error .value_error
  | some (some _) => .error .value_error
  | some none =>
      if request_compatible P st.current_placement i then
        match request_service P i with
        | none => .ok (false, st)
        | some S =>
            match find_suitable_nodes P st S orders with
            | .error e => .error e
            | .ok (none, res2, bw2) => .ok (false, ⟨st.current_placement, res2, bw2⟩)
            | .ok (some nodes, res2, bw2) =>
                .ok (true, ⟨st.current_placement.set i (some nodes), res2, bw2⟩)
      else .ok (false, st)

theorem accept_of_incompatible (P : Problem) (st : AccepterState) (i : Nat)
    (orders : Nat → List Nat)
    (hreg : st.current_placement.get? i = some none)
    (hcomp : request_compatible P st.current_placement i = false) :
    accept P st i orders = .ok (false, st) := by
  unfold accept
  rw [hreg]
  show (if request_compatible P st.current_placement i then _ else _) = _
  rw [hcomp]
  rfl

theorem mutually_exclusive_rejected_false_of_conflict
    (P : Problem) (pl : List Asg) (i s len j : Nat) (p : List Nat)
    (hg : group_bounds (group_sizes P) i = some (s, len))
    (hjs : s ≤ j) (hjl : j < s + len) (hji : j ≠ i)
    (hacc : pl.get? j = some (some p)) :
    mutually_exclusive_requests_rejected P pl i = false := by
  unfold mutually_exclusive_requests_rejected
  rw [hg]
  show ((List.range len).all fun o =>
    (s + o == i) || ((pl.get? (s + o)).getD none).isNone) = false
  cases hall : (List.range len).all
      (fun o => (s + o == i) || ((pl.get? (s + o)).getD none).isNone) with
  | false => rfl
  | true =>
      exfalso
      rw [List.all_eq_true] at hall
      have ho := hall (j - s) (List.mem_range.mpr (by omega))
      rw [show s + (j - s) = j from by omega, hacc] at ho
      simp only [Option.getD_some, Option.isNone_some, Bool.or_false,
        beq_iff_eq] at ho
      exact hji ho

/-- Claim C4: with r registered and currently rejected, accept returns false
without changing the accepter's state when another member of r's mutually
exclusive group is accepted; when r is not a main request, accept also
returns false without change when accepted_main / (accepted + 1) is below
the ratio floor; when r is a main request, the ratio forecast is skipped
(the check holds trivially). -/
theorem accept_gate_checks (P : Problem) (st : AccepterState) (i : Nat)
    (orders : Nat → List Nat)
    (hreg : st.current_placement.get? i = some none) :
    ((∃ s len j p, group_bounds (group_sizes P) i = some (s, len) ∧
        s ≤ j ∧ j < s + len ∧ j ≠ i ∧
        st.current_placement.get? j = some (some p)) →
      accept P st i orders = .ok (false, st)) ∧
    (request_is_main P i = false →
      (accepted_main_count (evaluated_requests P) st.current_placement : ℚ) /
          ((accepted_count st.current_placement : ℚ) + 1) <
        P.minimum_ratio_of_main_requests →
      accept P st i orders = .ok (false, st)) ∧
    (request_is_main P i = true →
      would_meet_minimum_main_ratio P st.current_placement i = true) := by
  refine ⟨?_, ?_, ?_⟩
  · rintro ⟨s, len, j, p, hg, hjs, hjl, hji, hacc⟩
    apply accept_of_incompatible P st i orders hreg
    unfold request_compatible
    rw [mutually_exclusive_rejected_false_of_conflict P _ i s len j p hg hjs hjl hji hacc]
    rfl
  · intro hmain hlt
    apply accept_of_incompatible P st i orders hreg
    unfold request_compatible
    have hwm : would_meet_minimum_main_ratio P st.current_placement i = false := by
      unfold would_meet_minimum_main_ratio
      rw [hmain]
      show decide _ = false
      exact decide_eq_false (not_le.mpr hlt)
    rw [hwm, Bool.and_false]
  · intro hmain
    unfold would_meet_minimum_main_ratio
    rw [hmain]
    rfl

/-- Witness for the C4 theorem: on the two-group instance, accepting the
alternative of the second group while its main is accepted returns false
and leaves the state unchanged. -/
theorem accept_gate_checks_witness :
    accept two_group_problem
      (init_accepter two_group_problem [none, some [0, 0, 0], none]) 2 (fun _ => [0])
      = .ok (false, init_accepter two_group_problem [none, some [0, 0, 0], none]) :=
  (accept_gate_checks two_group_problem
      (init_accepter two_group_problem [none, some [0, 0, 0], none]) 2 (fun _ => [0])
      rfl).1
    ⟨1, 2, 1, [0, 0, 0], rfl, by omega, by omega, by omega, rfl⟩

theorem walk_chain_last_isSome (P : Problem) (orders : Nat → List Nat)
    (l : List (Vnf × ℚ)) :
    ∀ (step cur : Nat) (lat : ℚ) (res : Nat → Nat → Int) (bw : Nat → Nat → ℚ)
      (acc : List Nat) (last : Option ℚ) (w : WalkResult),
      (l ≠ [] ∨ last.isSome = true) →
      walk_chain P orders l step cur lat res bw acc last = some w →
      w.last_virtual_bw.isSome = true := by
  induction l with
  | nil =>
      intro step cur lat res bw acc last w h hw
      rcases h with h | h
      · exact absurd rfl h
      · simp only [walk_chain] at hw
        injection hw with hw
        subst hw
        exact h
  | cons p rest ih =>
      intro step cur lat res bw acc last w h hw
      obtain ⟨v, vbw⟩ := p
      simp only [walk_chain] at hw
      cases hf : (orders step).find? (fun n => node_suitable P res bw cur n v vbw lat) with
      | none =>
          rw [hf] at hw
          exact absurd hw (by simp)
      | some n =>
          rw [hf] at hw
          exact ih (step + 1) n (lat - P.link_latency cur n) (update_resources res n v)
            (update_bandwidth bw cur n vbw) (acc ++ [n]) (some vbw) w (Or.inr rfl) hw

theorem egress_link_check_is_ok (P : Problem) (st : AccepterState) (S : Service)
    (w : WalkResult) (h : w.last_virtual_bw.isSome = true) :
    ∃ x, egress_link_check P st S w = .ok x := by
  cases hl : w.last_virtual_bw with
  | none => rw [hl] at h; exact absurd h (by simp)
  | some lvbw =>
      by_cases hs : incoming_link_suitable P w.bw w.cur S.egress lvbw
          w.remaining_latency = true
      · refine ⟨(some (w.nodes ++ [S.egress]), w.res, w.bw), ?_⟩
        unfold egress_link_check
        rw [hl]
        show (if incoming_link_suitable P w.bw w.cur S.egress lvbw w.remaining_latency
            then Except.ok (some (w.nodes ++ [S.egress]), w.res, w.bw)
            else Except.ok (none, (restored_tables P st).1, (restored_tables P st).2)) = _
        rw [if_pos hs]
      · refine ⟨(none, (restored_tables P st).1, (restored_tables P st).2), ?_⟩
        unfold egress_link_check
        rw [hl]
        show (if incoming_link_suitable P w.bw w.cur S.egress lvbw w.remaining_latency
            then Except.ok (some (w.nodes ++ [S.egress]), w.res, w.bw)
            else Except.ok (none, (restored_tables P st).1, (restored_tables P st).2)) = _
        rw [if_neg hs]

theorem egress_link_check_ne_value_error (P : Problem) (st : AccepterState)
    (S : Service) (w : WalkResult) :
    egress_link_check P st S w ≠ .error .value_error := by
  cases hl : w.last_virtual_bw with
  | none =>
      unfold egress_link_check
      rw [hl]
      simp
  | some lvbw =>
      unfold egress_link_check
      rw [hl]
      show (if incoming_link_suitable P w.bw w.cur S.egress lvbw w.remaining_latency
          then Except.ok (some (w.nodes ++ [S.egress]), w.res, w.bw)
          else Except.ok (none, (restored_tables P st).1, (restored_tables P st).2)) ≠ _
      by_cases hs : incoming_link_suitable P w.bw w.cur S.egress lvbw
          w.remaining_latency = true
      · rw [if_pos hs]
        simp
      · rw [if_neg hs]
        simp

theorem find_suitable_nodes_is_ok (P : Problem) (st : AccepterState) (S : Service)
    (orders : Nat → List Nat)
    (hne : S.vnf_chain.zip S.virtual_link_bw ≠ []) :
    ∃ x, find_suitable_nodes P st S orders = .ok x := by
  unfold find_suitable_nodes
  cases hw : walk_chain P orders (S.vnf_chain.zip S.virtual_link_bw) 0 S.ingress
      S.maximum_tolerated_latency st.remaining_resources st.remaining_bandwidth
      [S.ingress] none with
  | none => exact ⟨_, rfl⟩
  | some w =>
      exact egress_link_check_is_ok P st S w
        (walk_chain_last_isSome P orders _ _ _ _ _ _ _ _ _ (Or.inl hne) hw)

theorem find_suitable_nodes_ne_value_error (P : Problem) (st : AccepterState)
    (S : Service) (orders : Nat → List Nat) :
    find_suitable_nodes P st S orders ≠ .error .value_error := by
  unfold find_suitable_nodes
  cases hw : walk_chain P orders (S.vnf_chain.zip S.virtual_link_bw) 0 S.ingress
      S.maximum_tolerated_latency st.remaining_resources st.remaining_bandwidth
      [S.ingress] none with
  | none => simp
  | some w => exact egress_link_check_ne_value_error P st S w

/-- Claim C5 (amended): accept raises ValueError exactly when the request is
unknown (index beyond the placement) or already accepted; in every other
case where the request's service is well formed (k+1 virtual links) and its
VNF chain is nonempty, accept returns a boolean and does not raise.  With an
empty chain the source instead raises UnboundLocalError on the loop
variable `incoming_virtual_link` once the compatibility checks pass. -/
theorem accept_value_error_characterisation (P : Problem) (st : AccepterState)
    (i : Nat) (orders : Nat → List Nat) :
    (accept P st i orders = .error .value_error ↔
      st.current_placement.length ≤ i ∨
        ∃ p, st.current_placement.get? i = some (some p)) ∧
    (∀ S, st.current_placement.get? i = some none →
      request_service P i = some S →
      S.virtual_link_bw.length = S.vnf_chain.length + 1 →
      S.vnf_chain ≠ [] →
      ∃ b st2, accept P st i orders = .ok (b, st2)) := by
  constructor
  · cases hget : st.current_placement.get? i with
    | none =>
        constructor
        · intro _
          exact Or.inl (List.get?_eq_none.mp hget)
        · intro _
          unfold accept
          rw [hget]
    | some a =>
        cases a with
        | some p =>
            constructor
            · intro _
              exact Or.inr ⟨p, rfl⟩
            · intro _
              unfold accept
              rw [hget]
        | none =>
            have hok : accept P st i orders ≠ .error .value_error := by
              unfold accept
              rw [hget]
              show (if request_compatible P st.current_placement i then _ else _) ≠ _
              split
              · split
                · simp
                · rename_i S heqS
                  split
                  · next e heq =>
                      have hne := find_suitable_nodes_ne_value_error P st S orders
                      rw [heq] at hne
                      have he : e ≠ PyError.value_error := by
                        intro h
                        exact hne (by rw [h])
                      simp only [ne_eq, Except.error.injEq]
                      exact he
                  · simp
                  · simp
              · simp
            constructor
            · intro h
              exact absurd h hok
            · rintro (hlen | ⟨p, hp⟩)
              · rw [List.get?_eq_none.mpr hlen] at hget
                exact absurd hget (by simp)
              · exact absurd hp (by simp)
  · intro S hget hS hwf hne
    have hzip : S.vnf_chain.zip S.virtual_link_bw ≠ [] := by
      intro hz
      have hpos : 0 < S.vnf_chain.length := List.length_pos.mpr hne
      have hlz := List.length_zip S.vnf_chain S.virtual_link_bw
      rw [hz, hwf] at hlz
      simp at hlz
      omega
    unfold accept
    rw [hget]
    show ∃ b st2, (if request_compatible P st.current_placement i then _ else _)
      = Except.ok (b, st2)
    by_cases hc : request_compatible P st.current_placement i = true
    · rw [if_pos hc]
      show ∃ b st2, (match request_service P i with
        | none => Except.ok (false, st)
        | some S => match find_suitable_nodes P st S orders with
          | .error e => .error e
          | .ok (none, res2, bw2) =>
              .ok (false, AccepterState.mk st.current_placement res2 bw2)
          | .ok (some nodes, res2, bw2) =>
              .ok (true, AccepterState.mk (st.current_placement.set i (some nodes)) res2 bw2))
        = Except.ok (b, st2)
      rw [hS]
      obtain ⟨⟨optNodes, res2, bw2⟩, hx⟩ := find_suitable_nodes_is_ok P st S orders hzip
      show ∃ b st2, (match find_suitable_nodes P st S orders with
        | .error e => .error e
        | .ok (none, res2, bw2) =>
            .ok (false, AccepterState.mk st.current_placement res2 bw2)
        | .ok (some nodes, res2, bw2) =>
            .ok (true, AccepterState.mk (st.current_placement.set i (some nodes)) res2 bw2))
        = Except.ok (b, st2)
      rw [hx]
      cases optNodes with
      | none => exact ⟨false, _, rfl⟩
      | some nodes => exact ⟨true, _, rfl⟩
    · rw [if_neg hc]
      exact ⟨false, st, rfl⟩

/-- A service whose VNF chain is empty (one virtual link, ingress to
egress). -/
def empty_chain_service : Service := ⟨0, 0, [], [1], 0⟩

/-- One node, one resource; a single main request with an empty chain. -/
def empty_chain_problem : Problem :=
  ⟨1, 1, fun _ _ => 5, fun _ _ => 0, fun _ _ => 10, [(empty_chain_service, [])], 0⟩

/-- Claim C5 counterexample: on a registered, currently rejected request with
an empty VNF chain, accept raises UnboundLocalError (the for-loop never
binds `incoming_virtual_link`, which the egress check then reads), so
accept does not simply return a boolean in every non-ValueError case. -/
theorem accept_raises_unbound_on_empty_chain :
    (init_accepter empty_chain_problem [none]).current_placement.get? 0 = some none ∧
    accept empty_chain_problem (init_accepter empty_chain_problem [none]) 0
      (fun _ => [0]) = .error .unbound_local_error := by
  exact ⟨rfl, rfl⟩

/-- Witness for the amended C5 theorem: on the one-main instance the accept
call at the registered rejected request with a nonempty chain returns a
boolean. -/
theorem accept_value_error_characterisation_witness :
    ∃ b st2, accept one_main_problem_zero (init_accepter one_main_problem_zero [none]) 0
      (fun _ => [0]) = .ok (b, st2) :=
  (accept_value_error_characterisation one_main_problem_zero
      (init_accepter one_main_problem_zero [none]) 0 (fun _ => [0])).2
    unit_service rfl rfl rfl (List.cons_ne_nil unit_vnf [])

/-- Two mains, each a single unit-demand VNF; capacity 1, so only one fits. -/
def tight_problem : Problem :=
  ⟨1, 1, fun _ _ => 1, fun _ _ => 0, fun _ _ => 10, [(unit_service, []), (unit_service, [])], 0⟩

def tight_ord : Nat → List Nat := fun _ => [0]
def tight_st0 : AccepterState := init_accepter tight_problem [none, none]
def tight_res1 : Nat → Nat → Int := update_resources tight_st0.remaining_resources 0 unit_vnf
def tight_bw1 : Nat → Nat → ℚ := update_bandwidth tight_st0.remaining_bandwidth 0 0 1
def tight_st1 : AccepterState := ⟨[some [0, 0, 0], none], tight_res1, tight_bw1⟩

theorem tight_hns : node_suitable tight_problem tight_st0.remaining_resources
    tight_st0.remaining_bandwidth 0 0 unit_vnf 1 0 = true := by
  norm_num [node_suitable, node_has_sufficient_resources, node_compatible_with_vnf,
    incoming_link_suitable, tight_st0, init_accepter, committed_remaining_resources,
    committed_remaining_bandwidth, allocated_resources, allocated_bandwidth, pair_sum,
    evaluated_requests, tight_problem, unit_service, unit_vnf, row_resources, row_bandwidth,
    List.range_succ]

theorem tight_hfind : List.find? (fun n => node_suitable tight_problem tight_st0.remaining_resources
    tight_st0.remaining_bandwidth 0 n unit_vnf 1 0) [0] = some 0 :=
  List.find?_cons_of_pos _ tight_hns

theorem tight_hwalk : walk_chain tight_problem tight_ord [(unit_vnf, 1)] 0 0 0
    tight_st0.remaining_resources tight_st0.remaining_bandwidth [0] none
    = some ⟨[0, 0], 0, 0 - 0, tight_res1, tight_bw1, some 1⟩ := by
  rw [walk_chain]
  rw [show tight_ord 0 = [0] from rfl]
  rw [tight_hfind]
  rfl

theorem tight_hegress : egress_link_check tight_problem tight_st0 unit_service
    ⟨[0, 0], 0, 0 - 0, tight_res1, tight_bw1, some 1⟩ = .ok (some [0, 0, 0], tight_res1, tight_bw1) := by
  unfold egress_link_check
  show (if incoming_link_suitable tight_problem tight_bw1 0 0 1 (0 - 0) then _ else _) = _
  rw [if_pos]
  · rfl
  · show incoming_link_suitable tight_problem tight_bw1 0 0 1 (0 - 0) = true
    norm_num [incoming_link_suitable, tight_bw1, update_bandwidth, tight_st0, init_accepter,
      committed_remaining_bandwidth, allocated_bandwidth, pair_sum, evaluated_requests,
      tight_problem, unit_service, row_bandwidth]

theorem tight_accept1 : accept tight_problem tight_st0 0 tight_ord = .ok (true, tight_st1) := by
  unfold accept
  rw [show tight_st0.current_placement.get? 0 = some none from rfl]
  rw [if_pos (show request_compatible tight_problem tight_st0.current_placement 0 = true from rfl)]
  show (match find_suitable_nodes tight_problem tight_st0 unit_service tight_ord with
    | .error e => .error e
    | .ok (none, res2, bw2) =>
        Except.ok (false, AccepterState.mk tight_st0.current_placement res2 bw2)
    | .ok (some nodes, res2, bw2) =>
        Except.ok (true, AccepterState.mk (tight_st0.current_placement.set 0 (some nodes)) res2 bw2))
    = Except.ok (true, tight_st1)
  rw [show find_suitable_nodes tight_problem tight_st0 unit_service tight_ord
      = .ok (some [0, 0, 0], tight_res1, tight_bw1) from by
    unfold find_suitable_nodes
    rw [show unit_service.vnf_chain.zip unit_service.virtual_link_bw = [(unit_vnf, 1)] from rfl]
    rw [show unit_service.maximum_tolerated_latency = (0 : ℚ) from rfl]
    rw [show unit_service.ingress = 0 from rfl]
    rw [tight_hwalk]
    exact tight_hegress]
  rfl

def tight_st2 : AccepterState :=
  ⟨[some [0, 0, 0], none],
    committed_remaining_resources tight_problem [some [0, 0, 0], none],
    committed_remaining_bandwidth tight_problem [some [0, 0, 0], none]⟩

theorem tight_hns2 : node_suitable tight_problem tight_st1.remaining_resources
    tight_st1.remaining_bandwidth 0 0 unit_vnf 1 0 = false := by
  norm_num [node_suitable, node_has_sufficient_resources, tight_st1, tight_res1,
    update_resources, tight_st0, init_accepter, committed_remaining_resources,
    allocated_resources, pair_sum, evaluated_requests, tight_problem, unit_service, unit_vnf,
    row_resources, List.range_succ]

theorem tight_hwalk2 : walk_chain tight_problem tight_ord [(unit_vnf, 1)] 0 0 0
    tight_st1.remaining_resources tight_st1.remaining_bandwidth [0] none = none := by
  rw [walk_chain]
  rw [show tight_ord 0 = [0] from rfl]
  rw [show List.find? (fun n => node_suitable tight_problem tight_st1.remaining_resources
      tight_st1.remaining_bandwidth 0 n unit_vnf 1 0) [0] = none from by
    rw [List.find?_cons_of_neg]
    · rfl
    · simp [tight_hns2]]

theorem tight_accept2 : accept tight_problem tight_st1 1 tight_ord = .ok (false, tight_st2) := by
  unfold accept
  rw [show tight_st1.current_placement.get? 1 = some none from rfl]
  rw [if_pos (show request_compatible tight_problem tight_st1.current_placement 1 = true from rfl)]
  show (match find_suitable_nodes tight_problem tight_st1 unit_service tight_ord with
    | .error e => .error e
    | .ok (none, res2, bw2) =>
        Except.ok (false, AccepterState.mk tight_st1.current_placement res2 bw2)
    | .ok (some nodes, res2, bw2) =>
        Except.ok (true, AccepterState.mk (tight_st1.current_placement.set 1 (some nodes)) res2 bw2))
    = Except.ok (false, tight_st2)
  rw [show find_suitable_nodes tight_problem tight_st1 unit_service tight_ord
      = .ok (none, (restored_tables tight_problem tight_st1).1, (restored_tables tight_problem tight_st1).2) from by
    unfold find_suitable_nodes
    rw [show unit_service.vnf_chain.zip unit_service.virtual_link_bw = [(unit_vnf, 1)] from rfl]
    rw [show unit_service.maximum_tolerated_latency = (0 : ℚ) from rfl]
    rw [show unit_service.ingress = 0 from rfl]
    rw [tight_hwalk2]]
  rfl

theorem tight_bw_before : tight_st1.remaining_bandwidth 0 0 = 9 := by
  norm_num [tight_st1, tight_bw1, update_bandwidth, tight_st0, init_accepter,
    committed_remaining_bandwidth, allocated_bandwidth, pair_sum, evaluated_requests,
    tight_problem, unit_service, row_bandwidth]

theorem tight_bw_committed : committed_remaining_bandwidth tight_problem
    tight_st1.current_placement 0 0 = 8 := by
  norm_num [tight_st1, committed_remaining_bandwidth, allocated_bandwidth, pair_sum,
    evaluated_requests, tight_problem, unit_service, unit_vnf, row_bandwidth, path_pairs]

theorem tight_bw_after : tight_st2.remaining_bandwidth 0 0 = 8 := by
  norm_num [tight_st2, committed_remaining_bandwidth, allocated_bandwidth, pair_sum,
    evaluated_requests, tight_problem, unit_service, unit_vnf, row_bandwidth, path_pairs]

/-- Claim C3 evaluated at the failing input: on the tight two-main instance,
the first accept succeeds and leaves the local residual bandwidth of the
self-loop link at 9 (the egress virtual link's bandwidth of 1 is never
subtracted), while the committed placement's residual is 8; the second
accept fails (insufficient resources) and "restores" the local residual to
the committed value 8 — a failed accept changed a residual held by the
accepter, contradicting the residual-state contract the claim states. -/
theorem accepter_residual_contract_violation :
    accept tight_problem tight_st0 0 tight_ord = .ok (true, tight_st1) ∧
    tight_st1.remaining_bandwidth 0 0 = 9 ∧
    committed_remaining_bandwidth tight_problem tight_st1.current_placement 0 0 = 8 ∧
    accept tight_problem tight_st1 1 tight_ord = .ok (false, tight_st2) ∧
    tight_st2.remaining_bandwidth 0 0 = 8 :=
  ⟨tight_accept1, tight_bw_before, tight_bw_committed, tight_accept2, tight_bw_after⟩

end VnfPlacement
